import Mathlib

/-
Verification of the pizzint-tracker collector pipeline.

The repository polls an upstream API for a list of location records,
reduces it to a scalar index, classifies the current instant, guards
against a second reading in the same minute, flags spikes between
consecutive readings, and persists the result.  Four near-identical
collector variants exist: scripts/collect-manual.js (flat JSON file),
scripts/collect.js and api/collect.js (Supabase, detectSpike queried
after the insert) and scripts/continuous.js (Supabase, LIMIT 2 query).

This file embeds those scripts shallowly: JS numbers that can be NaN
become the JSNum type, ISO timestamp strings become lists of characters
produced by a model of Date.prototype.toISOString, and each collect()
body becomes a pure state-passing function.  Every new Date() call of
the source is an explicit Timestamp parameter.
-/

/-- JavaScript number restricted to the values arising in this code:
NaN or a finite rational.  (Infinities never arise: the only division
is by a list length, with numerator 0 whenever the length is 0.) -/
inductive JSNum where
  | nan : JSNum
  | num : ℚ → JSNum
deriving DecidableEq, Repr

/-- JS subtraction: NaN is absorbing. -/
def JSNum.sub : JSNum → JSNum → JSNum
  | JSNum.num a, JSNum.num b => JSNum.num (a - b)
  | _, _ => JSNum.nan

/-- JS comparison a > b, which is false whenever either side is NaN. -/
def JSNum.gtb : JSNum → JSNum → Bool
  | JSNum.num a, JSNum.num b => decide (b < a)
  | _, _ => false

/-- JS comparison a < b, which is false whenever either side is NaN. -/
def JSNum.ltb : JSNum → JSNum → Bool
  | JSNum.num a, JSNum.num b => decide (a < b)
  | _, _ => false

/-- JS division of finite values.  In this code the denominator is a
list length and the numerator is 0 whenever the denominator is 0, so
the only zero division that can occur is 0/0 = NaN. -/
def jsDiv (a : ℚ) (b : ℚ) : JSNum :=
  if b = 0 then JSNum.nan else JSNum.num (a / b)

/-- Rounding to two decimal places: models parseFloat(x.toFixed(2)) in
collect-manual.js line 81 and the DECIMAL(5,2) column type of
supabase-schema.sql (ties round up, matching those roundings on the
nonnegative values occurring here); NaN stays NaN. -/
def roundTo2 : JSNum → JSNum
  | JSNum.nan => JSNum.nan
  | JSNum.num q => JSNum.num (((round (q * 100) : ℤ) : ℚ) / 100)

/-- A location record of the upstream payload, reduced to its
current_popularity field: none models a missing or null field. -/
abbrev Loc := Option ℚ

/-- calculateIndex of scripts/collect.js lines 43-46, identical in
api/collect.js lines 34-37 and scripts/continuous.js:
pops = data.map(loc => loc.current_popularity || 0) followed by
pops.reduce((a, b) => a + b, 0) / pops.length.  On the empty list the
result is JS 0/0 = NaN; there is no emptiness check in the source. -/
def calculateIndex (data : List Loc) : JSNum :=
  let pops := data.map (fun loc => loc.getD 0)
  jsDiv (pops.foldl (fun a b => a + b) 0) (pops.length : ℚ)

/-- calculateIndex of scripts/collect-manual.js lines 40-46: the same
computation behind a guard that throws only when the argument is not an
array (none models null, undefined or any non-array value). -/
def calculateIndexManual (data : Option (List Loc)) : Except String JSNum :=
  match data with
  | none => Except.error ("Invalid data array")
  | some d => Except.ok (calculateIndex d)

/-- Output record of getDCTimeInfo. -/
structure DCTimeInfo where
  hour : Nat
  weekday : Nat
  isOvertime : Bool
  isWeekend : Bool
deriving DecidableEq, Repr

/-- getDCTimeInfo of the collector scripts (scripts/collect.js lines
30-41, scripts/collect-manual.js lines 27-38).  The timezone conversion
(toLocaleString with timeZone America/New_York, then re-parsing) is not
modelled; the function receives the derived reference-timezone hour and
weekday and computes the two flags exactly as the source does:
isOvertime = hour >= 18 || hour < 6, isWeekend = weekday === 0 ||
weekday === 6. -/
def getDCTimeInfo (hour weekday : Nat) : DCTimeInfo :=
  ⟨hour, weekday,
   decide (18 ≤ hour) || decide (hour < 6),
   decide (weekday = 0) || decide (weekday = 6)⟩

/-- A calendar instant at millisecond precision: the UTC components a
JS Date renders through Date.prototype.toISOString. -/
structure Timestamp where
  year : Nat
  month : Nat
  day : Nat
  hour : Nat
  minute : Nat
  second : Nat
  ms : Nat
deriving DecidableEq, Repr

/-- The decimal digit characters. -/
def digitChar : Nat → Char
  | 0 => '0'
  | 1 => '1'
  | 2 => '2'
  | 3 => '3'
  | 4 => '4'
  | 5 => '5'
  | 6 => '6'
  | 7 => '7'
  | 8 => '8'
  | _ => '9'

/-- Two-digit zero-padded decimal rendering (faithful for n < 100). -/
def pad2 (n : Nat) : List Char := [digitChar (n / 10), digitChar (n % 10)]

/-- Three-digit zero-padded decimal rendering (faithful for n < 1000). -/
def pad3 (n : Nat) : List Char :=
  [digitChar (n / 100), digitChar (n / 10 % 10), digitChar (n % 10)]

/-- Four-digit zero-padded decimal rendering (faithful for n < 10000). -/
def pad4 (n : Nat) : List Char :=
  [digitChar (n / 1000), digitChar (n / 100 % 10), digitChar (n / 10 % 10), digitChar (n % 10)]

/-- Date.prototype.toISOString: the 24-character rendering
YYYY-MM-DDTHH:mm:ss.sssZ used for every timestamp the scripts store. -/
def toISOChars (t : Timestamp) : List Char :=
  pad4 t.year ++ '-' :: (pad2 t.month ++ '-' :: (pad2 t.day ++ 'T' ::
    (pad2 t.hour ++ ':' :: (pad2 t.minute ++ ':' ::
      (pad2 t.second ++ '.' :: (pad3 t.ms ++ ['Z']))))))

/-- Minute bucket: a timestamp truncated to minute resolution. -/
def minuteBucket (t : Timestamp) : Nat × Nat × Nat × Nat × Nat :=
  (t.year, t.month, t.day, t.hour, t.minute)

/-- Calendar bounds every JS Date satisfies; only the upper bounds
matter for the fixed-width ISO rendering. -/
def Timestamp.Valid (t : Timestamp) : Prop :=
  t.year < 10000 ∧ 1 ≤ t.month ∧ t.month ≤ 12 ∧ 1 ≤ t.day ∧ t.day ≤ 31 ∧
    t.hour < 24 ∧ t.minute < 60 ∧ t.second < 60 ∧ t.ms < 1000

instance (t : Timestamp) : Decidable t.Valid := by
  unfold Timestamp.Valid; infer_instance

/-- The duplicate-guard key comparison of collect-manual.js line 90:
lastTs.substring(0, 16) === newReading.timestamp.substring(0, 16). -/
def sameMinuteKey (a b : List Char) : Bool := a.take 16 == b.take 16

/-- A stored reading, as written to data/readings.json by
collect-manual.js lines 79-86 and to the pizza_readings table (the
raw_data column, unused by any logic, is omitted). -/
structure Reading where
  timestamp : List Char
  index_value : JSNum
  dc_hour : Nat
  dc_weekday : Nat
  is_overtime : Bool
  is_weekend : Bool
deriving DecidableEq, Repr

/-- A stored spike record (collect-manual.js lines 103-110 and the
pizza_spikes table; the unused notes column is omitted). -/
structure Spike where
  timestamp : List Char
  index_from : JSNum
  index_to : JSNum
  change_amount : JSNum
  is_overtime : Bool
  is_weekend : Bool
deriving DecidableEq, Repr

/-- The flat-file database document of data/readings.json. -/
structure DB where
  readings : List Reading
  spikes : List Spike
  lastUpdate : Option (List Char)
deriving DecidableEq, Repr

/-- Outcome of one tick: the skipped / success status tags the scripts
return (the error tag only arises from I/O outside this model); success
carries whether a spike was recorded. -/
inductive Status where
  | skipped : Status
  | success : Bool → Status
deriving DecidableEq, Repr

/-- The default database used when the data file is missing or does not
parse (collect-manual.js line 69). -/
def emptyDB : DB := ⟨[], [], none⟩

/-- The newReading object of collect-manual.js lines 79-86: ISO
timestamp, index rounded via parseFloat(index.toFixed(2)), and the
calendar fields of getDCTimeInfo. -/
def mkReading (payload : List Loc) (t : Timestamp) (hour weekday : Nat) : Reading :=
  let dc := getDCTimeInfo hour weekday
  ⟨toISOChars t, roundTo2 (calculateIndex payload),
   dc.hour, dc.weekday, dc.isOvertime, dc.isWeekend⟩

/-- The spike predicate shared verbatim by all collector variants:
change > 20 || (indexTo > 70 && indexFrom < 55), with
change = indexTo - indexFrom (scripts/collect.js line 60,
collect-manual.js line 100, continuous.js line 43). -/
def spikeCond (indexFrom indexTo : JSNum) : Bool :=
  (indexTo.sub indexFrom).gtb (JSNum.num 20) ||
    (indexTo.gtb (JSNum.num 70) && indexFrom.ltb (JSNum.num 55))

/-- The spike object pushed by collect-manual.js lines 103-110. -/
def mkSpike (indexFrom : JSNum) (newReading : Reading) : Spike :=
  ⟨newReading.timestamp, indexFrom, newReading.index_value,
   newReading.index_value.sub indexFrom, newReading.is_overtime, newReading.is_weekend⟩

/-- slice(-cap) applied when the length exceeds cap: the retention trim
pattern of collect-manual.js lines 112-114 and 123-127. -/
def trimTo (cap : Nat) (l : List α) : List α :=
  if cap < l.length then l.drop (l.length - cap) else l

/-- The duplicate guard condition of collect-manual.js lines 89-90:
lastTs is the last stored reading's timestamp when one exists, and the
tick is skipped when lastTs && lastTs.substring(0,16) ===
newReading.timestamp.substring(0,16). -/
def dupSkip (db : DB) (newTs : List Char) : Bool :=
  match db.readings.getLast? with
  | some r => sameMinuteKey r.timestamp newTs
  | none => false

/-- The spike check of collect-manual.js lines 96-116: when a previous
reading exists and spikeCond holds between it and the new (rounded)
value, the spike is appended and the spike list trimmed to 100. -/
def spikeStep (db : DB) (newReading : Reading) : List Spike × Bool :=
  match db.readings.getLast? with
  | some prevR =>
    if spikeCond prevR.index_value newReading.index_value then
      (trimTo 100 (db.spikes ++ [mkSpike prevR.index_value newReading]), true)
    else (db.spikes, false)
  | none => (db.spikes, false)

/-- The post-guard body of collect-manual.js collect() lines 95-127:
spike check, reading append, retention trim to 10000 and lastUpdate. -/
def collectGo (db : DB) (newReading : Reading) : DB × Status :=
  (⟨trimTo 10000 (db.readings ++ [newReading]), (spikeStep db newReading).1,
    some newReading.timestamp⟩,
   Status.success (spikeStep db newReading).2)

/-- One tick of collect-manual.js collect() on the in-memory database:
build newReading from the payload and instant, run the duplicate guard
against the last stored reading, then the spike check, append and
trims.  hour and weekday are the derived reference-timezone values
feeding getDCTimeInfo. -/
def collectStep (db : DB) (payload : List Loc) (t : Timestamp) (hour weekday : Nat) :
    DB × Status :=
  let newReading := mkReading payload t hour weekday
  if dupSkip db newReading.timestamp then (db, Status.skipped)
  else collectGo db newReading

/-- Loading and rewriting data/readings.json around one tick: a missing
or unparseable file is modelled as none and replaced by emptyDB
(collect-manual.js lines 68-76, the catch branch); the file is
rewritten only on a non-skipped run (line 92 returns before the
writeFileSync of line 130). -/
def fileTick (content : Option DB) (payload : List Loc) (t : Timestamp)
    (hour weekday : Nat) : Option DB × Status :=
  let db := content.getD emptyDB
  let r := collectStep db payload t hour weekday
  match r.2 with
  | Status.skipped => (content, Status.skipped)
  | Status.success b => (some r.1, Status.success b)

/-- State of the two Supabase tables; the readings list is kept in
timestamp order, which insertion order preserves because the collector
is the single writer and samples its clock monotonically. -/
structure SupaState where
  readings : List Reading
  spikes : List Spike
deriving DecidableEq, Repr

/-- detectSpike of scripts/collect.js lines 48-71 (api/collect.js lines
40-66 is identical): the query SELECT index_value ORDER BY timestamp
DESC LIMIT 1 returns the last element of the table; when none exists
the function returns null, otherwise it builds the spike object with a
fresh new Date() sample (the now argument) when spikeCond holds. -/
def detectSpikeJS (readings : List Reading) (currentIndex : JSNum) (now : List Char)
    (dc : DCTimeInfo) : Option Spike :=
  match readings.getLast? with
  | none => none
  | some lastR =>
    if spikeCond lastR.index_value currentIndex then
      some ⟨now, lastR.index_value, currentIndex, currentIndex.sub lastR.index_value,
            dc.isOvertime, dc.isWeekend⟩
    else none

/-- One tick of scripts/collect.js collect() (api/collect.js is the
same flow): insert the reading first — index_value passing through the
DECIMAL(5,2) column, and the unique index idx_readings_unique_minute on
DATE_TRUNC('minute', timestamp) turning a same-minute insert into error
23505, i.e. a skipped tick — and only then call detectSpike.  tIns and
tSpk are the two separate new Date() samples of lines 96 and 62. -/
def collectJS (st : SupaState) (payload : List Loc) (tIns tSpk : Timestamp)
    (hour weekday : Nat) : SupaState × Status :=
  let index := calculateIndex payload
  let dc := getDCTimeInfo hour weekday
  if st.readings.any (fun r => sameMinuteKey r.timestamp (toISOChars tIns)) then
    (st, Status.skipped)
  else
    let newRow : Reading := ⟨toISOChars tIns, roundTo2 index, dc.hour, dc.weekday,
                             dc.isOvertime, dc.isWeekend⟩
    let readings2 := st.readings ++ [newRow]
    match detectSpikeJS readings2 index (toISOChars tSpk) dc with
    | some s => (⟨readings2, st.spikes ++ [s]⟩, Status.success true)
    | none => (⟨readings2, st.spikes⟩, Status.success false)

/-- One tick of scripts/continuous.js collect(): insert the reading,
query the two newest rows (ORDER BY timestamp DESC LIMIT 2); last[1],
the second newest, is the last row stored before this insert, so the
query yields it exactly when the pre-insert table is nonempty; when
spikeCond holds between it and the unrounded index, a spike is inserted
stamped with a fresh new Date() sample tSpk (line 233 of the source
file), its numeric fields passing through the DECIMAL columns. -/
def continuousCollect (st : SupaState) (payload : List Loc) (tIns tSpk : Timestamp)
    (hour weekday : Nat) : SupaState × Status :=
  let index := calculateIndex payload
  let dc := getDCTimeInfo hour weekday
  if st.readings.any (fun r => sameMinuteKey r.timestamp (toISOChars tIns)) then
    (st, Status.skipped)
  else
    let newRow : Reading := ⟨toISOChars tIns, roundTo2 index, dc.hour, dc.weekday,
                             dc.isOvertime, dc.isWeekend⟩
    let readings2 := st.readings ++ [newRow]
    match st.readings.getLast? with
    | none => (⟨readings2, st.spikes⟩, Status.success false)
    | some prevR =>
      if spikeCond prevR.index_value index then
        (⟨readings2, st.spikes ++
           [⟨toISOChars tSpk, prevR.index_value, roundTo2 index,
             roundTo2 (index.sub prevR.index_value), dc.isOvertime, dc.isWeekend⟩]⟩,
         Status.success true)
      else (⟨readings2, st.spikes⟩, Status.success false)

/-- The spec's Metric Aggregator formula, modelled from the spec words:
the arithmetic mean over all records of (current_popularity if present
and non-null, else 0), every record counted in the denominator. -/
def specMean (data : List Loc) : ℚ :=
  (data.map (fun r => match r with | some q => q | none => (0 : ℚ))).foldl
    (fun a b => a + b) 0 / (data.length : ℚ)

/-- Sample instant 2026-01-19T09:01:47.000Z. -/
def ts0 : Timestamp := ⟨2026, 1, 19, 9, 1, 47, 0⟩

/-- Sample instant ten minutes after ts0. -/
def ts1 : Timestamp := ⟨2026, 1, 19, 9, 11, 47, 0⟩

/-- Sample instant 123 milliseconds after ts1. -/
def ts2 : Timestamp := ⟨2026, 1, 19, 9, 11, 47, 123⟩

/-- A stored reading with index 30 at ts0, used as concrete prior state. -/
def reading30 : Reading := ⟨toISOChars ts0, JSNum.num 30, 9, 1, false, false⟩

/-- Conclusion of the duplicate-guard claim for a pair of instants: the
substring(0,16) comparison agrees with minute-bucket equality, and the
pipeline skips exactly on minute-bucket equality with the last stored
reading. -/
def minuteGuardConclusion (t1 t2 : Timestamp) : Prop :=
  (sameMinuteKey (toISOChars t1) (toISOChars t2) = true ↔
      minuteBucket t1 = minuteBucket t2) ∧
  ∀ (db : DB) (payload : List Loc) (hour weekday : Nat) (r : Reading),
    db.readings.getLast? = some r → r.timestamp = toISOChars t1 →
    ((collectStep db payload t2 hour weekday).2 = Status.skipped ↔
      minuteBucket t1 = minuteBucket t2)

/-- Conclusion of the flat-file retention claim for one tick: both caps
hold afterwards, a skipped tick changes nothing, and a successful tick
keeps a most-recent suffix of the appended lists with the exact capped
lengths. -/
def retentionConclusion (db : DB) (payload : List Loc) (t : Timestamp)
    (hour weekday : Nat) : Prop :=
  (collectStep db payload t hour weekday).1.readings.length ≤ 10000 ∧
  (collectStep db payload t hour weekday).1.spikes.length ≤ 100 ∧
  ((collectStep db payload t hour weekday).2 = Status.skipped →
    (collectStep db payload t hour weekday).1 = db) ∧
  ∀ b, (collectStep db payload t hour weekday).2 = Status.success b →
    (collectStep db payload t hour weekday).1.readings <:+
        db.readings ++ [mkReading payload t hour weekday] ∧
    (collectStep db payload t hour weekday).1.readings.length =
        min (db.readings.length + 1) 10000 ∧
    ∃ sp : List Spike, sp.length ≤ 1 ∧
      (collectStep db payload t hour weekday).1.spikes <:+ db.spikes ++ sp ∧
      (collectStep db payload t hour weekday).1.spikes.length =
        min (db.spikes.length + sp.length) 100

/-
Helper lemmas.
-/

theorem digitChar_inj : ∀ a, a < 10 → ∀ b, b < 10 → digitChar a = digitChar b → a = b := by
  decide

theorem take16_toISO (t : Timestamp) :
    (toISOChars t).take 16 =
      pad4 t.year ++ '-' :: (pad2 t.month ++ '-' :: (pad2 t.day ++ 'T' ::
        (pad2 t.hour ++ ':' :: pad2 t.minute))) := rfl

theorem round2_close (q : ℚ) :
    |q - ((round (q * 100) : ℤ) : ℚ) / 100| ≤ 1 / 200 := by
  have h : |q * 100 - ((round (q * 100) : ℤ) : ℚ)| ≤ 1 / 2 := abs_sub_round (q * 100)
  have he : q - ((round (q * 100) : ℤ) : ℚ) / 100 =
      (q * 100 - ((round (q * 100) : ℤ) : ℚ)) / 100 := by ring
  rw [he, abs_div, abs_of_pos (by norm_num : (0 : ℚ) < 100)]
  linarith

theorem spikeCond_roundTo2_self (x : JSNum) : spikeCond (roundTo2 x) x = false := by
  cases x with
  | nan => rfl
  | num q =>
    have h := round2_close q
    rw [abs_le] at h
    apply Bool.eq_false_iff.mpr
    simp only [roundTo2, spikeCond, JSNum.sub, JSNum.gtb, JSNum.ltb, Bool.or_eq_true,
      Bool.and_eq_true, decide_eq_true_eq, ne_eq, not_or, not_and, not_lt]
    constructor
    · linarith [h.1, h.2]
    · intro h70
      linarith [h.1, h.2]

theorem trimTo_suffix (cap : Nat) (l : List α) : trimTo cap l <:+ l := by
  unfold trimTo
  split
  · exact List.drop_suffix _ _
  · exact List.suffix_refl l

theorem trimTo_length (cap : Nat) (l : List α) : (trimTo cap l).length = min l.length cap := by
  unfold trimTo
  split <;> rename_i h <;> simp [List.length_drop] <;> omega

theorem getLast?_trimTo (cap : Nat) (hcap : 0 < cap) (l : List α) (a : α) :
    (trimTo cap (l ++ [a])).getLast? = some a := by
  unfold trimTo
  split
  · rename_i h
    have hle : (l ++ [a]).length - cap ≤ l.length := by
      simp only [List.length_append, List.length_cons, List.length_nil] at *
      omega
    rw [List.drop_append_of_le_length hle, List.getLast?_concat]
  · exact List.getLast?_concat _

theorem collectGo_snd (db : DB) (nr : Reading) :
    (collectGo db nr).2 = Status.success (spikeStep db nr).2 := rfl

theorem sameMinuteKey_iff (t1 t2 : Timestamp) (h1 : t1.Valid) (h2 : t2.Valid) :
    sameMinuteKey (toISOChars t1) (toISOChars t2) = true ↔
      minuteBucket t1 = minuteBucket t2 := by
  obtain ⟨hy1, hm1a, hm1, hd1a, hd1, hh1, hmi1, -, -⟩ := h1
  obtain ⟨hy2, hm2a, hm2, hd2a, hd2, hh2, hmi2, -, -⟩ := h2
  unfold sameMinuteKey
  rw [beq_iff_eq, take16_toISO, take16_toISO]
  simp only [pad4, pad2, List.cons_append, List.nil_append, List.cons.injEq, and_true,
    minuteBucket, Prod.mk.injEq, true_and]
  constructor
  · rintro ⟨e1, e2, e3, e4, e5, e6, e7, e8, e9, e10, e11, e12⟩
    have g1 := digitChar_inj _ (by omega) _ (by omega) e1
    have g2 := digitChar_inj _ (by omega) _ (by omega) e2
    have g3 := digitChar_inj _ (by omega) _ (by omega) e3
    have g4 := digitChar_inj _ (by omega) _ (by omega) e4
    have g5 := digitChar_inj _ (by omega) _ (by omega) e5
    have g6 := digitChar_inj _ (by omega) _ (by omega) e6
    have g7 := digitChar_inj _ (by omega) _ (by omega) e7
    have g8 := digitChar_inj _ (by omega) _ (by omega) e8
    have g9 := digitChar_inj _ (by omega) _ (by omega) e9
    have g10 := digitChar_inj _ (by omega) _ (by omega) e10
    have g11 := digitChar_inj _ (by omega) _ (by omega) e11
    have g12 := digitChar_inj _ (by omega) _ (by omega) e12
    refine ⟨by omega, by omega, by omega, by omega, by omega⟩
  · rintro ⟨e1, e2, e3, e4, e5⟩
    rw [e1, e2, e3, e4, e5]
    simp

/-
Claim theorems.
-/

/-- C1 counterexample: on the empty location sequence the Metric
Aggregator does not fail at all — collect-manual.js's only guard is
Array.isArray, so the empty array passes it and the function returns
the value NaN (0/0), not an EmptyPayload error. -/
theorem calculateIndex_empty_returns_nan :
    calculateIndexManual (some []) = Except.ok JSNum.nan := rfl

/-- C1 (amended): for every location sequence, calculateIndex returns
NaN exactly when the sequence is empty; no failure occurs and the NaN
is handed to the caller to propagate downstream. -/
theorem calculateIndex_nan_iff_empty :
    ∀ data : List Loc, calculateIndex data = JSNum.nan ↔ data = [] := by
  intro data
  cases data with
  | nil => simp [calculateIndex, jsDiv]
  | cons a l =>
    simp only [calculateIndex, jsDiv, List.map_cons, List.length_cons]
    rw [if_neg (Nat.cast_ne_zero.mpr (Nat.succ_ne_zero (l.map (fun loc => loc.getD 0)).length))]
    simp

/-- C3: the Spike Detector predicate classifies a transition as a spike
iff (index_to - index_from) > 20 or (index_to > 70 and
index_from < 55), and the four boundary examples behave as stated:
50 to 70 is no spike, 50 to 71 and 54 to 71 are spikes, 60 to 65 is no
spike. -/
theorem spikeCond_spec :
    (∀ f g : ℚ, spikeCond (JSNum.num f) (JSNum.num g) = true ↔
        (20 < g - f ∨ (70 < g ∧ f < 55))) ∧
    spikeCond (JSNum.num 50) (JSNum.num 70) = false ∧
    spikeCond (JSNum.num 50) (JSNum.num 71) = true ∧
    spikeCond (JSNum.num 54) (JSNum.num 71) = true ∧
    spikeCond (JSNum.num 60) (JSNum.num 65) = false := by
  have ev : ∀ f g : ℚ, spikeCond (JSNum.num f) (JSNum.num g) = true ↔
      (20 < g - f ∨ (70 < g ∧ f < 55)) := by
    intro f g
    simp [spikeCond, JSNum.sub, JSNum.gtb, JSNum.ltb]
  refine ⟨ev, ?_, ?_, ?_, ?_⟩ <;>
    simp only [spikeCond, JSNum.sub, JSNum.gtb, JSNum.ltb] <;> norm_num

/-- C5: for every non-empty location sequence the Metric Aggregator's
output is the finite value equal to the arithmetic mean over all
records of (current_popularity if present and non-null, else 0) — the
denominator is the total record count, so records with missing or null
popularity are counted, not excluded. -/
theorem calculateIndex_mean_spec :
    ∀ data : List Loc, data ≠ [] → calculateIndex data = JSNum.num (specMean data) := by
  intro data h
  have hfun : (fun loc : Loc => loc.getD 0) =
      (fun r : Loc => match r with | some q => q | none => (0 : ℚ)) := by
    funext r
    cases r <;> rfl
  have hlen : ((data.length : ℚ)) ≠ 0 := by
    have := List.length_pos.mpr h
    exact_mod_cast Nat.pos_iff_ne_zero.mp this
  simp only [calculateIndex, specMean, jsDiv, List.length_map, hfun, if_neg hlen]

/-- C5 witness: a three-record payload with one null popularity has
mean (40 + 0 + 60) / 3 counted over all three records. -/
theorem calculateIndex_mean_spec_witness :
    ([some 40, none, some 60] : List Loc) ≠ [] ∧
      calculateIndex [some 40, none, some 60] =
        JSNum.num (specMean [some 40, none, some 60]) :=
  ⟨by decide, calculateIndex_mean_spec [some 40, none, some 60] (by decide)⟩

/-- C6: for every derived hour below 24 and any weekday, the Time
Classifier sets is_overtime exactly on hours 18..23 and 0..5, and
is_weekend exactly on weekdays 0 and 6. -/
theorem getDCTimeInfo_flags_spec :
    ∀ hour weekday : Nat, hour < 24 →
      (((getDCTimeInfo hour weekday).isOvertime = true ↔
          ((18 ≤ hour ∧ hour ≤ 23) ∨ hour ≤ 5)) ∧
       ((getDCTimeInfo hour weekday).isWeekend = true ↔
          (weekday = 0 ∨ weekday = 6))) := by
  intro hour weekday h
  simp only [getDCTimeInfo, Bool.or_eq_true, decide_eq_true_eq]
  constructor
  · omega
  · trivial

/-- C6 witness: hour 14 on weekday 3 is neither overtime nor weekend. -/
theorem getDCTimeInfo_flags_spec_witness :
    14 < 24 ∧
      ((((getDCTimeInfo 14 3).isOvertime = true ↔ ((18 ≤ 14 ∧ 14 ≤ 23) ∨ 14 ≤ 5)) ∧
        ((getDCTimeInfo 14 3).isWeekend = true ↔ (3 = 0 ∨ 3 = 6)))) :=
  ⟨by decide, getDCTimeInfo_flags_spec 14 3 (by decide)⟩

/-- C4: for all valid instants, the Duplicate Guard's substring(0,16)
comparison of ISO timestamps holds exactly when the two instants
truncate to the same minute-bucket, and the pipeline skips ingestion
exactly on minute-bucket equality with the most recent stored
Reading — so two candidates in the same minute skip the second, while
candidates in different minutes (even one second apart) both proceed. -/
theorem duplicateGuard_same_minute_iff :
    ∀ t1 t2 : Timestamp, t1.Valid → t2.Valid → minuteGuardConclusion t1 t2 := by
  intro t1 t2 h1 h2
  refine ⟨sameMinuteKey_iff t1 t2 h1 h2, ?_⟩
  intro db payload hour weekday r hlast hts
  have hnr : (mkReading payload t2 hour weekday).timestamp = toISOChars t2 := rfl
  simp only [collectStep, dupSkip, hlast, hts, hnr]
  by_cases hk : sameMinuteKey (toISOChars t1) (toISOChars t2) = true
  · rw [if_pos hk]
    simpa using (sameMinuteKey_iff t1 t2 h1 h2).mp hk
  · rw [Bool.not_eq_true] at hk
    rw [if_neg (by rw [hk]; exact Bool.false_ne_true)]
    rw [collectGo_snd]
    constructor
    · intro hc
      exact absurd hc (by simp)
    · intro hb
      have := (sameMinuteKey_iff t1 t2 h1 h2).mpr hb
      rw [hk] at this
      exact absurd this Bool.false_ne_true

/-- C4 witness: 2026-01-19T09:01:47.000Z and 2026-01-19T09:11:47.000Z
are valid instants (lying in different minute-buckets). -/
theorem duplicateGuard_same_minute_iff_witness :
    (ts0.Valid ∧ ts1.Valid) ∧ minuteGuardConclusion ts0 ts1 :=
  ⟨by decide, duplicateGuard_same_minute_iff ts0 ts1 (by decide) (by decide)⟩

/-- C7: running the flat-file pipeline a second time with the same
payload and the same instant is a no-op skipped tick — the stored
database is unchanged — and from the empty database the first run
persists exactly one Reading. -/
theorem collectStep_idempotent_same_minute :
    ∀ (db : DB) (payload : List Loc) (t : Timestamp) (hour weekday : Nat),
      collectStep (collectStep db payload t hour weekday).1 payload t hour weekday =
        ((collectStep db payload t hour weekday).1, Status.skipped) ∧
      ((collectStep emptyDB payload t hour weekday).1).readings.length = 1 := by
  intro db payload t hour weekday
  constructor
  · by_cases hd : dupSkip db (mkReading payload t hour weekday).timestamp = true
    · have h1 : collectStep db payload t hour weekday = (db, Status.skipped) := by
        simp only [collectStep, if_pos hd]
      rw [h1]
      simp only [collectStep, if_pos hd]
    · rw [Bool.not_eq_true] at hd
      have h1 : collectStep db payload t hour weekday =
          collectGo db (mkReading payload t hour weekday) := by
        simp only [collectStep, hd, Bool.false_eq_true, if_false]
      rw [h1]
      have h2 : (collectGo db (mkReading payload t hour weekday)).1.readings.getLast? =
          some (mkReading payload t hour weekday) :=
        getLast?_trimTo 10000 (by norm_num) db.readings (mkReading payload t hour weekday)
      have h3 : dupSkip (collectGo db (mkReading payload t hour weekday)).1
          (mkReading payload t hour weekday).timestamp = true := by
        simp [dupSkip, h2, sameMinuteKey]
      simp only [collectStep, if_pos h3]
  · simp [collectStep, dupSkip, emptyDB, collectGo, spikeStep, trimTo]

/-- C10: when the data file is missing or its content does not parse
(modelled as none), the tick silently proceeds from the empty database
and on success rewrites the file to hold exactly the one new Reading —
the entire previously stored history is discarded rather than the tick
failing. -/
theorem fileTick_corrupt_file_resets_history :
    ∀ (payload : List Loc) (t : Timestamp) (hour weekday : Nat),
      fileTick none payload t hour weekday =
        (some ⟨[mkReading payload t hour weekday], [],
               some (mkReading payload t hour weekday).timestamp⟩,
         Status.success false) := by
  intro payload t hour weekday
  rfl

/-- C2 (the code at the failing input, in general form): the Supabase
one-shot collector inserts the new reading before calling detectSpike,
whose ORDER BY timestamp DESC LIMIT 1 query therefore returns the row
just inserted; the comparison is made against the new value itself
(after DECIMAL(5,2) rounding), so no invocation ever records a spike —
in particular not a +30 jump over the previous stored reading. -/
theorem collectJS_never_records_spike :
    ∀ (st : SupaState) (payload : List Loc) (tIns tSpk : Timestamp) (hour weekday : Nat),
      ((collectJS st payload tIns tSpk hour weekday).1).spikes = st.spikes ∧
      (collectJS ⟨[reading30], []⟩ [some 60] tIns tSpk hour weekday).1.spikes = [] := by
  intro st payload tIns tSpk hour weekday
  have main : ∀ (st : SupaState) (payload : List Loc),
      ((collectJS st payload tIns tSpk hour weekday).1).spikes = st.spikes := by
    intro st payload
    unfold collectJS
    split
    · rfl
    · have hnone : detectSpikeJS
          (st.readings ++ [⟨toISOChars tIns, roundTo2 (calculateIndex payload),
            (getDCTimeInfo hour weekday).hour, (getDCTimeInfo hour weekday).weekday,
            (getDCTimeInfo hour weekday).isOvertime, (getDCTimeInfo hour weekday).isWeekend⟩])
          (calculateIndex payload) (toISOChars tSpk) (getDCTimeInfo hour weekday) = none := by
        unfold detectSpikeJS
        rw [List.getLast?_concat]
        simp [spikeCond_roundTo2_self]
      simp only [hnone]
  exact ⟨main st payload, main ⟨[reading30], []⟩ [some 60]⟩

theorem spikeStep_cases (db : DB) (nr : Reading) :
    (spikeStep db nr).1 = db.spikes ∨
      ∃ s, (spikeStep db nr).1 = trimTo 100 (db.spikes ++ [s]) := by
  rcases hg : db.readings.getLast? with - | prevR
  · left
    simp only [spikeStep, hg]
  · by_cases hc : spikeCond prevR.index_value nr.index_value = true
    · right
      exact ⟨mkSpike prevR.index_value nr, by simp only [spikeStep, hg, if_pos hc]⟩
    · left
      rw [Bool.not_eq_true] at hc
      simp only [spikeStep, hg, hc, Bool.false_eq_true, if_false]

theorem spikeStep_true (db : DB) (nr : Reading) (h : (spikeStep db nr).2 = true) :
    ∃ f, (spikeStep db nr).1.getLast? = some (mkSpike f nr) := by
  rcases hg : db.readings.getLast? with - | prevR
  · simp only [spikeStep, hg] at h
    exact absurd h Bool.false_ne_true
  · by_cases hc : spikeCond prevR.index_value nr.index_value = true
    · refine ⟨prevR.index_value, ?_⟩
      simp only [spikeStep, hg, if_pos hc]
      exact getLast?_trimTo 100 (by norm_num) _ _
    · rw [Bool.not_eq_true] at hc
      simp only [spikeStep, hg, hc, Bool.false_eq_true, if_false] at h

/-- C8: starting from a database within the caps, after any tick the
flat-file backend holds at most 10000 readings and at most 100 spikes;
a skipped tick changes nothing, and a successful tick retains a
most-recent suffix (original order) of the appended lists, of exactly
the capped length — so an append that would exceed a cap evicts the
oldest entries. -/
theorem collectStep_retention_invariant :
    ∀ (db : DB) (payload : List Loc) (t : Timestamp) (hour weekday : Nat),
      db.readings.length ≤ 10000 → db.spikes.length ≤ 100 →
      retentionConclusion db payload t hour weekday := by
  intro db payload t hour weekday hr hs
  unfold retentionConclusion
  by_cases hd : dupSkip db (mkReading payload t hour weekday).timestamp = true
  · have h1 : collectStep db payload t hour weekday = (db, Status.skipped) := by
      simp only [collectStep, if_pos hd]
    rw [h1]
    refine ⟨hr, hs, fun _ => rfl, ?_⟩
    intro b hb
    exact absurd hb (by simp)
  · rw [Bool.not_eq_true] at hd
    have h1 : collectStep db payload t hour weekday =
        collectGo db (mkReading payload t hour weekday) := by
      simp only [collectStep, hd, Bool.false_eq_true, if_false]
    rw [h1]
    have hread : (collectGo db (mkReading payload t hour weekday)).1.readings =
        trimTo 10000 (db.readings ++ [mkReading payload t hour weekday]) := rfl
    have hlenr : (collectGo db (mkReading payload t hour weekday)).1.readings.length =
        min (db.readings.length + 1) 10000 := by
      rw [hread, trimTo_length]
      simp [List.length_append]
    have hspk : (collectGo db (mkReading payload t hour weekday)).1.spikes =
        (spikeStep db (mkReading payload t hour weekday)).1 := rfl
    have hsplen : (collectGo db (mkReading payload t hour weekday)).1.spikes.length ≤ 100 ∧
        ∃ sp : List Spike, sp.length ≤ 1 ∧
          (collectGo db (mkReading payload t hour weekday)).1.spikes <:+ db.spikes ++ sp ∧
          (collectGo db (mkReading payload t hour weekday)).1.spikes.length =
            min (db.spikes.length + sp.length) 100 := by
      rcases spikeStep_cases db (mkReading payload t hour weekday) with h | ⟨s, h⟩
      · rw [hspk, h]
        refine ⟨hs, [], by simp, ?_, ?_⟩
        · rw [List.append_nil]
        · simp only [List.length_nil]
          omega
      · rw [hspk, h]
        refine ⟨?_, [s], by simp, trimTo_suffix _ _, ?_⟩
        · rw [trimTo_length]
          omega
        · rw [trimTo_length]
          simp [List.length_append]
    refine ⟨by rw [hlenr]; omega, hsplen.1, ?_, ?_⟩
    · intro hcontra
      rw [collectGo_snd] at hcontra
      exact absurd hcontra (by simp)
    · intro b hb
      exact ⟨by rw [hread]; exact trimTo_suffix _ _, hlenr, hsplen.2⟩

/-- C9 (amended, flat-file variant): whenever the flat-file pipeline
records a spike, the stored Spike's timestamp equals the timestamp of
the newly persisted Reading — collect-manual.js stamps the spike with
newReading.timestamp, not with a fresh clock sample. -/
theorem collectStep_spike_timestamp_eq_reading :
    ∀ (db : DB) (payload : List Loc) (t : Timestamp) (hour weekday : Nat),
      (collectStep db payload t hour weekday).2 = Status.success true →
      ∃ s : Spike, (collectStep db payload t hour weekday).1.spikes.getLast? = some s ∧
        s.timestamp = (mkReading payload t hour weekday).timestamp := by
  intro db payload t hour weekday hsucc
  by_cases hd : dupSkip db (mkReading payload t hour weekday).timestamp = true
  · rw [show collectStep db payload t hour weekday = (db, Status.skipped) from
      by simp only [collectStep, if_pos hd]] at hsucc
    exact absurd hsucc (by simp)
  · rw [Bool.not_eq_true] at hd
    have h1 : collectStep db payload t hour weekday =
        collectGo db (mkReading payload t hour weekday) := by
      simp only [collectStep, hd, Bool.false_eq_true, if_false]
    rw [h1] at hsucc ⊢
    rw [collectGo_snd] at hsucc
    have htrue : (spikeStep db (mkReading payload t hour weekday)).2 = true := by
      simpa using hsucc
    obtain ⟨f, hf⟩ := spikeStep_true db (mkReading payload t hour weekday) htrue
    exact ⟨mkSpike f (mkReading payload t hour weekday), hf, rfl⟩

theorem calcIndex_single60 : calculateIndex [some 60] = JSNum.num 60 := by
  simp [calculateIndex, jsDiv]

theorem mkReading_idx60 : (mkReading [some 60] ts1 9 1).index_value = JSNum.num 60 := by
  show roundTo2 (calculateIndex [some 60]) = JSNum.num 60
  rw [calcIndex_single60]
  simp only [roundTo2]
  norm_num [round_eq]

theorem spikeCond_30_60 : spikeCond (JSNum.num 30) (JSNum.num 60) = true := by
  simp only [spikeCond, JSNum.sub, JSNum.gtb, JSNum.ltb]
  norm_num

/-- C9 counterexample: a run of the continuous Supabase collector from
one stored reading (index 30 at ts0) on a payload with index 60, with
the reading inserted at ts1 and the spike built 123 ms later at ts2,
records a spike whose timestamp is the fresh clock sample ts2 — not the
timestamp ts1 of the newly persisted reading it compares. -/
theorem continuousCollect_spike_timestamp_independent :
    (continuousCollect ⟨[reading30], []⟩ [some 60] ts1 ts2 9 1).1.spikes.map
        Spike.timestamp = [toISOChars ts2] ∧
    (continuousCollect ⟨[reading30], []⟩ [some 60] ts1 ts2 9 1).1.readings.getLast?.map
        Reading.timestamp = some (toISOChars ts1) ∧
    toISOChars ts2 ≠ toISOChars ts1 := by
  have hany : ((⟨[reading30], []⟩ : SupaState).readings.any
      fun r => sameMinuteKey r.timestamp (toISOChars ts1)) = false := rfl
  have hsc : spikeCond reading30.index_value (calculateIndex [some 60]) = true := by
    rw [show reading30.index_value = JSNum.num 30 from rfl, calcIndex_single60]
    exact spikeCond_30_60
  simp only [continuousCollect, hany, Bool.false_eq_true, if_false,
    show ([reading30] : List Reading).getLast? = some reading30 from rfl, if_pos hsc]
  refine ⟨rfl, rfl, by decide⟩

/-- C9 witness: from one stored reading of index 30 in an earlier
minute, a payload of index 60 at ts1 yields a successful tick that
records a spike. -/
theorem collectStep_spike_timestamp_eq_reading_witness :
    (collectStep ⟨[reading30], [], none⟩ [some 60] ts1 9 1).2 = Status.success true ∧
    ∃ s : Spike, (collectStep ⟨[reading30], [], none⟩ [some 60] ts1 9 1).1.spikes.getLast? =
        some s ∧ s.timestamp = (mkReading [some 60] ts1 9 1).timestamp := by
  have hdup : dupSkip ⟨[reading30], [], none⟩ (mkReading [some 60] ts1 9 1).timestamp =
      false := rfl
  have hsc : spikeCond reading30.index_value (mkReading [some 60] ts1 9 1).index_value =
      true := by
    rw [show reading30.index_value = JSNum.num 30 from rfl, mkReading_idx60]
    exact spikeCond_30_60
  have hs2 : (spikeStep ⟨[reading30], [], none⟩ (mkReading [some 60] ts1 9 1)).2 = true := by
    simp only [spikeStep,
      show (⟨[reading30], [], none⟩ : DB).readings.getLast? = some reading30 from rfl,
      if_pos hsc]
  have hsucc : (collectStep ⟨[reading30], [], none⟩ [some 60] ts1 9 1).2 =
      Status.success true := by
    simp only [collectStep, hdup, Bool.false_eq_true, if_false, collectGo_snd, hs2]
  exact ⟨hsucc, collectStep_spike_timestamp_eq_reading _ _ _ _ _ hsucc⟩

/-- C8 witness: the empty database satisfies both caps, and one tick on
a two-record payload meets the retention conclusion. -/
theorem collectStep_retention_invariant_witness :
    (emptyDB.readings.length ≤ 10000 ∧ emptyDB.spikes.length ≤ 100) ∧
      retentionConclusion emptyDB [some 40, some 60] ts1 14 3 :=
  ⟨by decide, collectStep_retention_invariant emptyDB [some 40, some 60] ts1 14 3
    (by decide) (by decide)⟩
